import Mathlib

/-!
Verification of the koncur comparison/diffing engine.

This file is a shallow embedding of the Go sources of the koncur test
harness (packages `pkg/validator`, `pkg/parser` and the validation phase of
`pkg/cli/run.go`) together with theorems settling the specified properties
of the comparison engine.

Strings are modelled through their character lists; Go `strings.ReplaceAll`
and `strings.Contains` are re-implemented on `List Char` below so that every
definition is executable and every proof goes through the kernel.
Go runtime panics (nil-comparer dereference, negative slice index, the
`uri.URI.Filename` panic on a non-file URI) are modelled by `Option`, with
`none` standing for the panic.
-/

set_option autoImplicit false

namespace Koncur

/-! ## String utilities (models of Go `strings` functions) -/

/-- Model of Go `strings.Contains(s, pat)` on character lists: some suffix of
`s` has `pat` as a prefix. -/
def containsL (pat : List Char) : List Char → Bool
  | [] => pat.isEmpty
  | c :: cs => pat.isPrefixOf (c :: cs) || containsL pat cs

/-- Model of Go `strings.Contains` on `String`. -/
def containsS (s pat : String) : Bool :=
  containsL pat.data s.data

/-- Fueled worker for `strings.ReplaceAll`: replace every non-overlapping
occurrence of `pat` (scanning left to right) by `rep`.  The fuel is the
length of the scanned list, so the recursion is structural and the function
evaluates inside the kernel. -/
def replaceAllGo (pat rep : List Char) : Nat → List Char → List Char
  | _, [] => []
  | 0, s => s
  | fuel + 1, c :: cs =>
    if pat ≠ [] ∧ pat.isPrefixOf (c :: cs) then
      rep ++ replaceAllGo pat rep fuel ((c :: cs).drop pat.length)
    else
      c :: replaceAllGo pat rep fuel cs

/-- Model of Go `strings.ReplaceAll(s, pat, rep)`. -/
def SReplaceAll (s pat rep : String) : String :=
  ⟨replaceAllGo pat.data rep.data s.data.length s.data⟩

theorem replaceAllGo_of_not_contains (pat rep : List Char) :
    ∀ (fuel : Nat) (s : List Char), containsL pat s = false →
      replaceAllGo pat rep fuel s = s := by
  intro fuel
  induction fuel with
  | zero =>
    intro s _
    cases s <;> rfl
  | succ n ih =>
    intro s h
    cases s with
    | nil => rfl
    | cons c cs =>
      simp only [containsL, Bool.or_eq_false_iff] at h
      simp only [replaceAllGo]
      rw [if_neg, ih cs h.2]
      intro hcontra
      rw [h.1] at hcontra
      exact Bool.noConfusion hcontra.2

theorem SReplaceAll_of_not_contains (s pat rep : String)
    (h : containsS s pat = false) : SReplaceAll s pat rep = s := by
  unfold SReplaceAll
  rw [replaceAllGo_of_not_contains _ _ _ _ h]

/-- Tail of `l` after a match of `"/java-bin-" ++ digits ++ "/"` starting at
the head of `l` (greedy over the digits, like `\d+`), if any. -/
def javaBinAt (l : List Char) : Option (List Char) :=
  if ("/java-bin-".data).isPrefixOf l then
    let rest := l.drop 10
    let ds := rest.takeWhile Char.isDigit
    if ds ≠ [] ∧ (rest.drop ds.length).head? = some '/' then
      some (rest.drop (ds.length + 1))
    else none
  else none

/-- Tail of `l` after the rightmost match of `"/java-bin-" ++ digits ++ "/"`
(the greedy `.*` of the Go pattern selects the rightmost occurrence). -/
def javaBinSuffix : List Char → Option (List Char)
  | [] => none
  | c :: cs =>
    match javaBinSuffix cs with
    | some r => some r
    | none => javaBinAt (c :: cs)

/-- Model of `regexp.MustCompile(".*" ++ "/java-bin-" ++ digits ++ "/")
.ReplaceAllString(s, "file:///source/")`: with the greedy leading `.*`, a
single leftmost match spans from the start of the string to the end of the
rightmost `/java-bin-<digits>/` segment (URIs contain no newline), and it is
replaced by `file:///source/`; if no such segment exists the string is kept. -/
def javaBinReplace (s : String) : String :=
  match javaBinSuffix s.data with
  | none => s
  | some r => "file:///source/" ++ ⟨r⟩

theorem javaBinSuffix_of_not_contains :
    ∀ s : List Char, containsL ("/java-bin-".data) s = false →
      javaBinSuffix s = none := by
  intro s
  induction s with
  | nil => intro _; rfl
  | cons c cs ih =>
    intro h
    simp only [containsL, Bool.or_eq_false_iff] at h
    simp only [javaBinSuffix, ih h.2, javaBinAt, h.1]
    rfl

theorem javaBinReplace_of_not_contains (s : String)
    (h : containsS s "/java-bin-" = false) : javaBinReplace s = s := by
  unfold javaBinReplace
  rw [javaBinSuffix_of_not_contains s.data h]

/-- First-match association-list lookup (model of a Go map read; Go map keys
are unique, so the first match is the only one). -/
def lookupK {α : Type} (k : String) : List (String × α) → Option α
  | [] => none
  | (k', v) :: rest => if k = k' then some v else lookupK k rest

theorem lookupK_isSome_iff {α : Type} (k : String) (l : List (String × α)) :
    (lookupK k l).isSome = true ↔ k ∈ l.map Prod.fst := by
  induction l with
  | nil => simp [lookupK]
  | cons kv rest ih =>
    obtain ⟨k', v⟩ := kv
    by_cases h : k = k' <;> simp [lookupK, h, ih]

/-! ## Data model (konveyor output entities)

`konveyor.Incident.Variables` is a free-form `map[string]interface{}`; only
its (in)equality is ever consulted by the engine, so the values are modelled
as strings.  `Violation.Extras` is raw JSON, modelled as a string.
`LineNumber : *int` and `Effort : *int` become `Option Int`,
`Category : *Category` becomes `Option String`. -/

structure Incident where
  URI : String
  Message : String
  CodeSnip : String
  LineNumber : Option Int
  Variables : List (String × String)
deriving DecidableEq, Repr, Inhabited

structure Link where
  URL : String
  Title : String
deriving DecidableEq, Repr, Inhabited

structure Violation where
  Description : String
  Category : Option String
  Labels : List String
  Incidents : List Incident
  Links : List Link
  Extras : String
  Effort : Option Int
deriving DecidableEq, Repr, Inhabited

structure RuleSet where
  Name : String
  Description : String
  Tags : List String
  Violations : List (String × Violation)
  Insights : List (String × Violation)
  Errors : List (String × String)
  Unmatched : List String
  Skipped : List String
deriving DecidableEq, Repr, Inhabited

/-- A value stored in the `any`-typed `Expected`/`Actual` fields of a
`ValidationError` (Go `nil` interface is `nil`). -/
inductive GoVal where
  | nil : GoVal
  | str : String → GoVal
  | vio : Violation → GoVal
  | inc : Incident → GoVal
deriving DecidableEq, Repr, Inhabited

structure ValidationError where
  Path : String := ""
  Message : String := ""
  Expected : GoVal := .nil
  Actual : GoVal := .nil
deriving DecidableEq, Repr, Inhabited

structure ValidationResult where
  Passed : Bool
  Errors : List ValidationError
deriving DecidableEq, Repr, Inhabited

/-! ## Path normalizer (`pkg/parser`, `NormalizeRuleSets` / `normalizeIncident`) -/

/-- The path-rewriting chain of `normalizeIncident` (parser.go): strip the
test directory, rewrite the Maven-cache mount aliases to `/m2/`, the
source-mount aliases to `/source/`, and finally the ephemeral
`java-bin-<digits>` temp directories to `file:///source/`. -/
def normFileName (uri testDir : String) : String :=
  let fn := uri
  let fn := if testDir ≠ "" then SReplaceAll fn testDir "" else fn
  let fn := if containsS fn "/root/.m2/repository" then
    SReplaceAll fn "/root/.m2/repository/" "/m2/" else fn
  let fn := if containsS fn "/cache/m2/" then
    SReplaceAll fn "/cache/m2/" "/m2/" else fn
  let fn := if containsS fn "/addon/.m2/repository" then
    SReplaceAll fn "/addon/.m2/repository/" "/m2/" else fn
  let fn := if containsS fn "/shared/source/" then
    SReplaceAll fn "/shared/source" "/source" else fn
  let fn := if containsS fn "/opt/input/source" then
    SReplaceAll fn "/opt/input/source" "/source" else fn
  javaBinReplace fn

/-- Model of `parser.normalizeIncident`: incidents whose URI is empty or not
a `file://` reference are returned unchanged with no error; otherwise the
rewriting chain is applied, and an empty result is reported as the error
`fileName went to empty: <uri>` (the returned incident keeps the original
URI in that case). -/
def normalizeIncident (incident : Incident) (testDir : String) :
    Incident × Option String :=
  if incident.URI = "" || !(containsS incident.URI "file://") then
    (incident, none)
  else if normFileName incident.URI testDir = "" then
    (incident, some ("fileName went to empty: " ++ incident.URI))
  else
    ({ incident with URI := normFileName incident.URI testDir }, none)

/-- Worker of `parser.normalizeViolation`: every incident (normalized or
not) is appended, and the per-incident errors are joined in order. -/
def normalizeIncidentList (testDir : String) :
    List Incident → List Incident × List String
  | [] => ([], [])
  | i :: rest =>
    let (ni, e) := normalizeIncident i testDir
    let (restIncs, restErrs) := normalizeIncidentList testDir rest
    (ni :: restIncs,
      match e with
      | some msg => msg :: restErrs
      | none => restErrs)

/-- Model of `parser.normalizeViolation`: copies every field and normalizes
each incident, collecting the incident errors. -/
def normalizeViolation (violation : Violation) (testDir : String) :
    Violation × List String :=
  let (incs, errs) := normalizeIncidentList testDir violation.Incidents
  ({ Description := violation.Description
     Category := violation.Category
     Labels := violation.Labels
     Incidents := incs
     Links := violation.Links
     Extras := violation.Extras
     Effort := violation.Effort }, errs)

/-- Violations loop of `NormalizeRuleSets`: a violation whose normalization
reports an error is dropped and its error joined to the aggregate. -/
def normalizeViolationEntries (testDir : String) :
    List (String × Violation) → List (String × Violation) × List String
  | [] => ([], [])
  | (k, v) :: rest =>
    let (nv, errs) := normalizeViolation v testDir
    let (restOut, restErrs) := normalizeViolationEntries testDir rest
    match errs with
    | [] => ((k, nv) :: restOut, restErrs)
    | _ => (restOut, errs ++ restErrs)

/-- Insights loop of `NormalizeRuleSets`: an insight whose normalization
reports an error is dropped silently (its error is *not* joined). -/
def normalizeInsightEntries (testDir : String) :
    List (String × Violation) → List (String × Violation)
  | [] => []
  | (k, v) :: rest =>
    let (nv, errs) := normalizeViolation v testDir
    let restOut := normalizeInsightEntries testDir rest
    match errs with
    | [] => (k, nv) :: restOut
    | _ => restOut

/-- Model of `parser.NormalizeRuleSets`: returns the normalized rulesets
together with the aggregate error (a list of joined error messages; `[]`
models a `nil` error). -/
def NormalizeRuleSets (rulesets : List RuleSet) (testDir : String) :
    List RuleSet × List String :=
  match rulesets with
  | [] => ([], [])
  | rs :: rest =>
    let (vios, verrs) := normalizeViolationEntries testDir rs.Violations
    let insights := normalizeInsightEntries testDir rs.Insights
    let newRuleSet : RuleSet :=
      { Name := rs.Name
        Description := rs.Description
        Tags := rs.Tags
        Violations := vios
        Insights := insights
        Errors := rs.Errors
        Unmatched := rs.Unmatched
        Skipped := rs.Skipped }
    let (restOut, restErrs) := NormalizeRuleSets rest testDir
    (newRuleSet :: restOut, verrs ++ restErrs)

/-! ## Base (strict) comparer (`pkg/validator/base_validator.go`) -/

inductive incidentField where
  | URI : incidentField
  | LINE_NUMBER : incidentField
  | CODE_SNIP : incidentField
  | MESSAGE : incidentField
  | NONE : incidentField
deriving DecidableEq, Repr, Inhabited

/-- The iota value of an `incidentField` constant. -/
def incidentField.toNat : incidentField → Nat
  | .URI => 0
  | .LINE_NUMBER => 1
  | .CODE_SNIP => 2
  | .MESSAGE => 3
  | .NONE => 4

/-- `incidentField.String()`. -/
def incidentField.toGoString : incidentField → String
  | .URI => "uri"
  | .LINE_NUMBER => "line number"
  | .CODE_SNIP => "code snip"
  | .MESSAGE => "message"
  | .NONE => ""

/-- `baseValidator.normalizeURI` currently returns its argument unchanged
(the rewriting body is commented out in the source). -/
def normalizeURI (uri : String) : String := uri

def findExpectedString (expected : String) (actual : List String) : Bool :=
  actual.any (fun a => expected == a)

def lineNumberOrZero : Option Int → Int
  | some n => n
  | none => 0

/-- Model of `baseValidator.incidentsMatch`: URI, line number (nil treated
as 0) and message are compared; the code-snip and variable comparisons are
commented out in the source and therefore absent. -/
def incidentsMatch (expected actual : Incident) : Bool × incidentField :=
  if expected.URI ≠ actual.URI then (false, .URI)
  else if lineNumberOrZero expected.LineNumber ≠ lineNumberOrZero actual.LineNumber then
    (false, .LINE_NUMBER)
  else if expected.Message ≠ actual.Message then (false, .MESSAGE)
  else (true, .NONE)

def baseCompareTags (expected actual : List String) : List ValidationError :=
  ((expected.filter (fun exp => !(findExpectedString exp actual))).map
    (fun exp =>
      { Path := "/" ++ exp
        Message := "Did not find expected tag: " ++ exp
        Expected := .str exp })) ++
  ((actual.filter (fun act => !(findExpectedString act expected))).map
    (fun act =>
      { Path := "/" ++ act
        Message := "Unexpected tag found: " ++ act
        Actual := .str act }))

/-- The maximum failing field: `slices.Sorted(maps.Keys(faild_fields))` and
taking the last element selects the largest iota value of the set. -/
def maxField (l : List incidentField) : incidentField :=
  l.foldl (fun acc f => if acc.toNat < f.toNat then f else acc) .URI

/-- Expected-incident loop of `baseValidator.compareViolationDetails`.  When
an expected incident has no match, the failing field of every candidate is
collected and the largest one reported; with *no* candidates the collected
set is empty and indexing it at `len-1 = -1` panics (modelled as `none`). -/
def baseDetailMissing (expIncs actIncs : List Incident) :
    Option (List ValidationError) :=
  match expIncs with
  | [] => some []
  | i :: rest =>
    if actIncs.any (fun ai => (incidentsMatch i ai).1) then
      baseDetailMissing rest actIncs
    else
      match actIncs with
      | [] => none
      | _ =>
        let field_error := maxField (actIncs.map (fun ai => (incidentsMatch i ai).2))
        match baseDetailMissing rest actIncs with
        | none => none
        | some restErrs =>
          some ({ Message := "Did not find expected incident:  " ++
                    normalizeURI i.URI ++ ":" ++
                    toString (lineNumberOrZero i.LineNumber) ++
                    " failed to match on: " ++ field_error.toGoString
                  : ValidationError } :: restErrs)

/-- Actual-incident loop of `baseValidator.compareViolationDetails` (cannot
panic: the failing-field set is collected but never indexed). -/
def baseDetailUnexpected (expIncs actIncs : List Incident) :
    List ValidationError :=
  (actIncs.filter (fun ai => !(expIncs.any (fun i => (incidentsMatch i ai).1)))).map
    (fun ai =>
      { Message := "Unexpected incident found: " ++ normalizeURI ai.URI ++
          ":" ++ toString (lineNumberOrZero ai.LineNumber) })

/-- Model of `baseValidator.compareViolationDetails` (category, effort,
links, labels, then the two incident loops; `%v` of a Go pointer prints a
machine address, rendered here as an opaque `0x..`). -/
def baseCompareViolationDetails (expected actual : Violation) :
    Option (List ValidationError) :=
  let catErrs : List ValidationError :=
    if actual.Category.isSome ∧ expected.Category.isSome ∧
        expected.Category ≠ actual.Category then
      [{ Message := "Did not find expected category: 0x.." }]
    else []
  let effErrs : List ValidationError :=
    if (expected.Effort.isSome ∧ actual.Effort.isSome) ∧
        expected.Effort ≠ actual.Effort then
      [{ Message := "Did not find expected effort: 0x.." }]
    else []
  let linkErrs : List ValidationError :=
    (expected.Links.filter (fun l =>
      !(actual.Links.any (fun al => l.Title == al.Title && l.URL == al.URL)))).map
      (fun l =>
        { Message := "Did not find expected link: \x7b" ++ l.URL ++ " " ++
            l.Title ++ "\x7d" })
  let labelErrs : List ValidationError :=
    (expected.Labels.filter (fun l => !(findExpectedString l actual.Labels))).map
      (fun l => { Message := "Did not find expected label: " ++ l })
  match baseDetailMissing expected.Incidents actual.Incidents with
  | none => none
  | some missingErrs =>
    some (catErrs ++ effErrs ++ linkErrs ++ labelErrs ++ missingErrs ++
      baseDetailUnexpected expected.Incidents actual.Incidents)

/-- Prefix a detail error with the owning rule id (`"/%s%s"`). -/
def prefixPath (k : String) (e : ValidationError) : ValidationError :=
  { e with Path := "/" ++ k ++ e.Path }

/-- Expected-keys loop of `baseValidator.compareViolations`. -/
def baseCompareViolationsGo (actual : List (String × Violation)) :
    List (String × Violation) → Option (List ValidationError)
  | [] => some []
  | (k, exp) :: rest =>
    match lookupK k actual with
    | none =>
      match baseCompareViolationsGo actual rest with
      | none => none
      | some restErrs =>
        some ({ Path := "/" ++ k
                Message := "Did not find expected violation: " ++ k
                Expected := .vio exp } :: restErrs)
    | some act =>
      match baseCompareViolationDetails exp act with
      | none => none
      | some detailErrs =>
        match baseCompareViolationsGo actual rest with
        | none => none
        | some restErrs => some (detailErrs.map (prefixPath k) ++ restErrs)

/-- Unexpected-keys loop shared by the violation comparers. -/
def unexpectedViolationErrs (expected actual : List (String × Violation)) :
    List ValidationError :=
  (actual.filter (fun kv => (lookupK kv.1 expected).isNone)).map
    (fun kv =>
      { Path := "/" ++ kv.1
        Message := "Unexpected violation found: " ++ kv.1
        Actual := .vio kv.2 })

/-- Model of `baseValidator.compareViolations`; `none` models the panic
raised by `compareViolationDetails` on an empty actual-incident list. -/
def baseCompareViolations (expected actual : List (String × Violation)) :
    Option (List ValidationError) :=
  match baseCompareViolationsGo actual expected with
  | none => none
  | some errs => some (errs ++ unexpectedViolationErrs expected actual)

/-- Model of `baseValidator.compareErrors`. -/
def baseCompareErrors (expected actual : List (String × String)) :
    List ValidationError :=
  ((expected.filter (fun kv => lookupK kv.1 actual ≠ some kv.2)).map
    (fun kv =>
      { Path := "/" ++ kv.1
        Message := "Did not find expected error: " ++ kv.2
        Expected := .str kv.2 })) ++
  ((actual.filter (fun kv => (lookupK kv.1 expected).isNone)).map
    (fun kv =>
      { Path := "/" ++ kv.1
        Message := "Unexpected error found: " ++ kv.1
        Actual := .str kv.2 }))

/-- Model of `baseValidator.compareUnmatched`. -/
def baseCompareUnmatched (expected actual : List String) : List ValidationError :=
  ((expected.filter (fun exp => !(findExpectedString exp actual))).map
    (fun exp =>
      { Path := "/" ++ exp
        Message := "Did not find expected unmatched rule: " ++ exp
        Expected := .str exp })) ++
  ((actual.filter (fun act => !(findExpectedString act expected))).map
    (fun act =>
      { Path := "/" ++ act
        Message := "Unexpected unmatched rule found: " ++ act
        Actual := .str act }))

/-- Model of `baseValidator.compareSkipped`. -/
def baseCompareSkipped (expected actual : List String) : List ValidationError :=
  ((expected.filter (fun exp => !(findExpectedString exp actual))).map
    (fun exp =>
      { Path := "/" ++ exp
        Message := "Did not find expected skipped rule: " ++ exp
        Expected := .str exp })) ++
  ((actual.filter (fun act => !(findExpectedString act expected))).map
    (fun act =>
      { Path := "/" ++ act
        Message := "Unexpected skipped rule found: " ++ act
        Actual := .str act }))

/-! ## Tackle-hub comparer (`pkg/validator/tackle2_hub_validator.go`) -/

/-- Go `strings.HasPrefix`, over character lists. -/
def strHasPrefix (pre s : String) : Bool :=
  pre.data.isPrefixOf s.data

/-- Drop the first `n` characters of a string (the compared strings are
ASCII, so characters coincide with Go bytes). -/
def strDropL (s : String) (n : Nat) : String :=
  ⟨s.data.drop n⟩

/-- Model of `go.lsp.dev/uri.URI.Filename` for hostless `file://` URIs (the
only kind the engine produces): the path after the scheme.  On any other
input `Filename` panics, modelled as `none` (percent-escapes and Windows
drive letters do not occur in the compared documents and are not modelled). -/
def filenameOf (u : String) : Option String :=
  if strHasPrefix "file://" u then some (strDropL u 7) else none

/-- Model of `path/filepath.Rel("/source", p)` for already-clean paths: `.`
for `/source` itself, the tail for paths under `/source/`, a `..`-prefixed
walk for other absolute paths, and an error (`none`) for relative paths. -/
def relSource (p : String) : Option String :=
  if !(strHasPrefix "/" p) then none
  else if p = "/source" then some "."
  else if strHasPrefix "/source/" p then some (strDropL p 8)
  else if p = "/" then some ".."
  else some (".." ++ p)

def lineNumbersMismatch (expected actual : Incident) : Bool :=
  match expected.LineNumber, actual.LineNumber with
  | some x, some y => x != y
  | _, _ => false

/-- URI step of `tackleHubValidator.incidentsMatch`: `some true` falls
through, `some false` is the `return false` branch, `none` is the
`Filename` panic on a non-file URI. -/
def hubUriStep (expected actual : Incident) : Option Bool :=
  if expected.URI ≠ "" ∧ actual.URI ≠ "" then
    if expected.URI ≠ actual.URI then
      match filenameOf expected.URI with
      | none => none
      | some fn =>
        match relSource fn with
        | none => some false
        | some pathToTest =>
          match filenameOf actual.URI with
          | none => none
          | some afn =>
            if containsS afn pathToTest then some true else some false
    else some true
  else some true

/-- Model of `tackleHubValidator.incidentsMatch`: relaxed URI containment,
message equality, and line-number equality only when both sides carry one;
code snips are never compared. -/
def hubIncidentsMatch (expected actual : Incident) : Option Bool :=
  match hubUriStep expected actual with
  | none => none
  | some false => some false
  | some true =>
    if expected.Message ≠ actual.Message then some false
    else if lineNumbersMismatch expected actual then some false
    else some true

/-- Scan the actual incidents for the first hub-match of `i` (`none` if a
candidate check panics first). -/
def hubFindMatch (i : Incident) : List Incident → Option Bool
  | [] => some false
  | ai :: rest =>
    match hubIncidentsMatch i ai with
    | none => none
    | some true => some true
    | some false => hubFindMatch i rest

/-- Scan the expected incidents for the first hub-match of `ai`. -/
def hubFindMatchForActual (ai : Incident) : List Incident → Option Bool
  | [] => some false
  | i :: rest =>
    match hubIncidentsMatch i ai with
    | none => none
    | some true => some true
    | some false => hubFindMatchForActual ai rest

/-- Expected-incident loop of `tackleHubValidator.compareViolationDetails`:
the scan runs even for insights, but a missing-incident error is only
emitted when the violation is not insight-classified. -/
def hubDetailMissing (skipForInsight : Bool) (actIncs : List Incident) :
    List Incident → Option (List ValidationError)
  | [] => some []
  | i :: rest =>
    match hubFindMatch i actIncs with
    | none => none
    | some found =>
      match hubDetailMissing skipForInsight actIncs rest with
      | none => none
      | some restErrs =>
        if !found && !skipForInsight then
          some ({ Message := "Did not find expected incident: " ++ i.URI ++
                    ":" ++ toString (lineNumberOrZero i.LineNumber)
                  : ValidationError } :: restErrs)
        else some restErrs

/-- Actual-incident loop of `tackleHubValidator.compareViolationDetails`. -/
def hubDetailUnexpected (skipForInsight : Bool) (expIncs : List Incident) :
    List Incident → Option (List ValidationError)
  | [] => some []
  | ai :: rest =>
    match hubFindMatchForActual ai expIncs with
    | none => none
    | some found =>
      match hubDetailUnexpected skipForInsight expIncs rest with
      | none => none
      | some restErrs =>
        if !found && !skipForInsight then
          some ({ Message := "Unexpected incident found: " ++ ai.URI ++ ":" ++
                    toString (lineNumberOrZero ai.LineNumber)
                  Actual := .inc ai
                  : ValidationError } :: restErrs)
        else some restErrs

/-- Model of `tackleHubValidator.compareViolationDetails`: entries without
an expected effort are insights whose category/effort/links/labels and
incident reports are all suppressed. -/
def hubCompareViolationDetails (expected actual : Violation) :
    Option (List ValidationError) :=
  let skipForInsight := expected.Effort.isNone
  let effErrs : List ValidationError :=
    if !skipForInsight ∧ (expected.Effort.isSome ∧ actual.Effort.isSome) ∧
        expected.Effort ≠ actual.Effort then
      [{ Message := "Did not find expected effort: 0x.." }]
    else []
  let catErrs : List ValidationError :=
    if !skipForInsight ∧ actual.Category.isSome ∧ expected.Category.isSome ∧
        expected.Category ≠ actual.Category then
      [{ Message := "Did not find expected category: 0x.." }]
    else []
  let linkErrs : List ValidationError :=
    if !skipForInsight then
      (expected.Links.filter (fun l =>
        !(actual.Links.any (fun al => l.Title == al.Title && l.URL == al.URL)))).map
        (fun l =>
          { Message := "Did not find expected link: \x7b" ++ l.URL ++ " " ++
              l.Title ++ "\x7d" })
    else []
  let labelErrs : List ValidationError :=
    if !skipForInsight then
      (expected.Labels.filter (fun l => !(findExpectedString l actual.Labels))).map
        (fun l => { Message := "Did not find expected label: " ++ l })
    else []
  match hubDetailMissing skipForInsight actual.Incidents expected.Incidents with
  | none => none
  | some missingErrs =>
    match hubDetailUnexpected skipForInsight expected.Incidents actual.Incidents with
    | none => none
    | some unexpectedErrs =>
      some (effErrs ++ catErrs ++ linkErrs ++ labelErrs ++ missingErrs ++
        unexpectedErrs)

/-- Expected-keys loop of `tackleHubValidator.compareViolations`. -/
def hubCompareViolationsGo (actual : List (String × Violation)) :
    List (String × Violation) → Option (List ValidationError)
  | [] => some []
  | (k, exp) :: rest =>
    match lookupK k actual with
    | none =>
      match hubCompareViolationsGo actual rest with
      | none => none
      | some restErrs =>
        some ({ Path := "/" ++ k
                Message := "Did not find expected violation: " ++ k
                Expected := .vio exp } :: restErrs)
    | some act =>
      match hubCompareViolationDetails exp act with
      | none => none
      | some detailErrs =>
        match hubCompareViolationsGo actual rest with
        | none => none
        | some restErrs => some (detailErrs.map (prefixPath k) ++ restErrs)

/-- Model of `tackleHubValidator.compareViolations`. -/
def hubCompareViolations (expected actual : List (String × Violation)) :
    Option (List ValidationError) :=
  match hubCompareViolationsGo actual expected with
  | none => none
  | some errs => some (errs ++ unexpectedViolationErrs expected actual)

/-! ## Comparer dispatch (`pkg/validator/validator.go`) -/

/-- A comparer strategy: the capability set of the `comparer` interface.
`compareViolations` returns `none` when the Go method panics. -/
structure Comparer where
  compareTags : List String → List String → List ValidationError
  compareViolations : List (String × Violation) → List (String × Violation) →
    Option (List ValidationError)
  compareErrors : List (String × String) → List (String × String) →
    List ValidationError
  compareUnmatched : List String → List String → List ValidationError
  compareSkipped : List String → List String → List ValidationError

/-- The base (strict) comparer. -/
def baseComparer : Comparer :=
  { compareTags := baseCompareTags
    compareViolations := baseCompareViolations
    compareErrors := baseCompareErrors
    compareUnmatched := baseCompareUnmatched
    compareSkipped := baseCompareSkipped }

/-- The tackle-hub comparer: tags, unmatched and skipped are never diffed. -/
def hubComparer : Comparer :=
  { compareTags := fun _ _ => []
    compareViolations := hubCompareViolations
    compareErrors := baseCompareErrors
    compareUnmatched := fun _ _ => []
    compareSkipped := fun _ _ => [] }

/-- Modelled from the spec: the type `kantraValidator` is declared in a
source file that is not part of this tree (only `getComparer` refers to
it).  Per the spec (the Relaxed-B strategy) tags are never diffed by this
backend class, and all other strict (base) rules apply. -/
def kantraComparer : Comparer :=
  { baseComparer with compareTags := fun _ _ => [] }

/-- Model of `getComparer`: the five recognized target types; every other
string (including the empty string) yields a nil comparer, modelled as
`none`.  The `testDir` member of the base validator is never read by the
current comparison methods and is ignored. -/
def getComparer (targetType testDir : String) : Option Comparer :=
  if targetType = "kantra" then some kantraComparer
  else if targetType = "tackle-hub" then some hubComparer
  else if targetType = "tackle-ui" then some kantraComparer
  else if targetType = "kai-rpc" then some kantraComparer
  else if targetType = "vscode" then some kantraComparer
  else none

/-- Go `maps.Equal` on a string-keyed map of decidable-equality values,
over association lists with unique keys. -/
def mapsEqualB {α : Type} [DecidableEq α]
    (m1 m2 : List (String × α)) : Bool :=
  m1.length == m2.length && m1.all (fun kv => lookupK kv.1 m2 == some kv.2)

/-- The six per-ruleset difference guards of `ValidateFiles` (`maps.Equal`
for errors, `reflect.DeepEqual` for the rest; `DeepEqual` on Go maps is
key-based, on slices order-sensitive). -/
def rulesetDiffers (ers rs : RuleSet) : Bool :=
  !(mapsEqualB ers.Errors rs.Errors) ||
  !(rs.Tags == ers.Tags) ||
  !(mapsEqualB rs.Insights ers.Insights) ||
  !(mapsEqualB rs.Violations ers.Violations) ||
  !(rs.Unmatched == ers.Unmatched) ||
  !(rs.Skipped == ers.Skipped)

/-- One guarded comparison of `ValidateFiles`: when the guard fires the
comparer is dereferenced (a nil comparer panics, `none`); otherwise no
comparison happens and no error is contributed. -/
def guardStep (c : Option Comparer) (guard : Bool)
    (run : Comparer → Option (List ValidationError)) :
    Option (List ValidationError) :=
  if guard then
    match c with
    | none => none
    | some cc => run cc
  else some []

/-- Prefix a group of comparison errors with `<ruleset name><segment>`. -/
def pathify (name seg : String) (errs : List ValidationError) :
    List ValidationError :=
  errs.map (fun e => { e with Path := name ++ seg ++ e.Path })

/-- Per-expected-ruleset body of `ValidateFiles`: find the first actual
ruleset with the same name and run the six guarded comparisons; each guard
that fires dereferences the comparer, so with a nil comparer (`none`) any
firing guard panics. -/
def processRuleset (c : Option Comparer) (actual : List RuleSet)
    (ers : RuleSet) : Option (List ValidationError) :=
  match actual.find? (fun rs => rs.Name == ers.Name) with
  | none =>
    some [{ Path := "ruleset/" ++ ers.Name
            Message := "Did not find a matching ruleset" }]
  | some rs =>
    match guardStep c (!(mapsEqualB ers.Errors rs.Errors))
        (fun cc => some (cc.compareErrors ers.Errors rs.Errors)) with
    | none => none
    | some e1 =>
    match guardStep c (!(rs.Tags == ers.Tags))
        (fun cc => some (cc.compareTags ers.Tags rs.Tags)) with
    | none => none
    | some e2 =>
    match guardStep c (!(mapsEqualB rs.Insights ers.Insights))
        (fun cc => cc.compareViolations ers.Insights rs.Insights) with
    | none => none
    | some e3 =>
    match guardStep c (!(mapsEqualB rs.Violations ers.Violations))
        (fun cc => cc.compareViolations ers.Violations rs.Violations) with
    | none => none
    | some e4 =>
    match guardStep c (!(rs.Unmatched == ers.Unmatched))
        (fun cc => some (cc.compareUnmatched ers.Unmatched rs.Unmatched)) with
    | none => none
    | some e5 =>
    match guardStep c (!(rs.Skipped == ers.Skipped))
        (fun cc => some (cc.compareSkipped ers.Skipped rs.Skipped)) with
    | none => none
    | some e6 =>
      some (pathify rs.Name "/error" e1 ++ pathify rs.Name "/tags" e2 ++
        pathify rs.Name "/insights" e3 ++ pathify rs.Name "/violations" e4 ++
        pathify rs.Name "/unmatched" e5 ++ pathify rs.Name "/skipped" e6)

/-- Sequence `processRuleset` over the expected rulesets, propagating a
panic. -/
def processRulesets (c : Option Comparer) (actual : List RuleSet) :
    List RuleSet → Option (List ValidationError)
  | [] => some []
  | ers :: rest =>
    match processRuleset c actual ers with
    | none => none
    | some errs =>
      match processRulesets c actual rest with
      | none => none
      | some restErrs => some (errs ++ restErrs)

/-- Final loop of `ValidateFiles`: one error per actual ruleset whose name
no expected ruleset carries. -/
def unexpectedRulesetErrs (actual expected : List RuleSet) :
    List ValidationError :=
  (actual.filter (fun rs => !(expected.any (fun ers => ers.Name == rs.Name)))).map
    (fun rs =>
      { Path := "ruleset/" ++ rs.Name
        Message := "Unexpected ruleset found: " ++ rs.Name
        Actual := .str rs.Name : ValidationError })

/-- Model of `validator.ValidateFiles`; `none` models a runtime panic (nil
comparer dereference or the base detail comparison fault). -/
def ValidateFiles (testDir targetType : String)
    (actual expected : List RuleSet) : Option ValidationResult :=
  match processRulesets (getComparer targetType testDir) actual expected with
  | none => none
  | some errs =>
    some { Passed := (errs ++ unexpectedRulesetErrs actual expected).isEmpty
           Errors := errs ++ unexpectedRulesetErrs actual expected }

/-- Model of the exported `validator.Validate`: delegates with empty test
directory and empty target type. -/
def Validate (actual expected : List RuleSet) : Option ValidationResult :=
  ValidateFiles "" "" actual expected

/-! ## Validation phase of a test run (`pkg/cli/run.go`, `runSingleTest`) -/

/-- Model of the normalization-then-validation fragment of `runSingleTest`:
when `NormalizeRuleSets` reports a non-nil aggregate error the test is
marked failed and returns before any comparison; only otherwise is
`ValidateFiles` invoked on the normalized output.  `none` models the
aborted run (no comparison performed). -/
def runValidationPhase (testDir targetType : String)
    (filteredActual expected : List RuleSet) : Option (Option ValidationResult) :=
  match NormalizeRuleSets filteredActual testDir with
  | (_, _ :: _) => none
  | (normalizedActual, []) =>
    some (ValidateFiles testDir targetType normalizedActual expected)

/-! ## C1: the strict incident match -/

/-- C1, counterexample: the claim that the strict `incidentsMatch` requires
variable-map equality (when the expected variables are non-empty) is false:
the variable comparison is commented out in the source, so two incidents
with equal URI, line number and message but different, non-empty expected
variables still match. -/
theorem c1_counterexample :
    ¬ (∀ e a : Incident, ((incidentsMatch e a).1 = true ↔
        (e.URI = a.URI ∧ e.Message = a.Message ∧
         lineNumberOrZero e.LineNumber = lineNumberOrZero a.LineNumber ∧
         (e.Variables ≠ [] → e.Variables = a.Variables)))) := by
  intro h
  have hm := (h ⟨"file:///source/App.java", "m", "", some 1, [("x", "1")]⟩
      ⟨"file:///source/App.java", "m", "", some 1, []⟩).mp (by decide)
  exact absurd (hm.2.2.2 (by decide)) (by decide)

/-- C1, amended: under the strict (base) comparer, `incidentsMatch` returns
true if and only if the URIs are string-equal, the line numbers are equal
with nil treated as 0, and the messages are equal; neither the variable
maps nor the code snips are compared. -/
theorem c1_incidentsMatch_iff (e a : Incident) :
    (incidentsMatch e a).1 = true ↔
      (e.URI = a.URI ∧
       lineNumberOrZero e.LineNumber = lineNumberOrZero a.LineNumber ∧
       e.Message = a.Message) := by
  unfold incidentsMatch
  split_ifs with h1 h2 h3 <;> simp_all

/-! ## C3: the empty-result error of incident normalization -/

/-- C3, counterexample: an incident with an *empty* input URI is returned
unchanged with a nil error (the empty/non-`file://` guard returns before
any error can be raised), contradicting the claim that an empty input URI
fails with a `NormalizationError`. -/
theorem c3_counterexample :
    normalizeIncident ⟨"", "m", "", none, []⟩ "" =
      (⟨"", "m", "", none, []⟩, none) := by
  decide

/-- C3, amended: `normalizeIncident` reports an error exactly when the
input URI is a non-empty `file://` reference whose rewritten form is the
empty string; an incident with an empty (or non-`file://`) URI is passed
through with no error, and an empty string is never installed as a
successfully normalized URI (the returned URI is empty only when the input
URI already was). -/
theorem c3_normalizeIncident_error_iff (inc : Incident) (d : String) :
    ((normalizeIncident inc d).2.isSome = true ↔
      (inc.URI ≠ "" ∧ containsS inc.URI "file://" = true ∧
       normFileName inc.URI d = "")) ∧
    ((normalizeIncident inc d).1.URI = "" ↔ inc.URI = "") := by
  unfold normalizeIncident
  split_ifs with h1 h2
  · simp only [Bool.or_eq_true, decide_eq_true_eq, Bool.not_eq_true'] at h1
    refine ⟨⟨fun h => absurd h (by simp), fun hr => ?_⟩, Iff.rfl⟩
    obtain ⟨hne, hcon, _⟩ := hr
    rcases h1 with h | h
    · exact absurd h hne
    · rw [h] at hcon; exact Bool.noConfusion hcon
  · simp only [Bool.or_eq_true, decide_eq_true_eq, Bool.not_eq_true',
      not_or, Bool.not_eq_false] at h1
    exact ⟨⟨fun _ => ⟨h1.1, h1.2, h2⟩, fun _ => rfl⟩, Iff.rfl⟩
  · simp only [Bool.or_eq_true, decide_eq_true_eq, Bool.not_eq_true',
      not_or, Bool.not_eq_false] at h1
    constructor
    · refine ⟨fun h => absurd h (by simp), fun hr => absurd hr.2.2 h2⟩
    · constructor
      · intro h; exact absurd h h2
      · intro h; exact absurd h h1.1

/-! ## C5: idempotence of path normalization -/

/-- The path-level view of incident normalization: the URI returned by
`normalizeIncident` for an incident carrying path `p`. -/
def normPath (testDir p : String) : String :=
  ((normalizeIncident ⟨p, "", "", none, []⟩ testDir).1).URI

/-- C5, counterexample: normalization is not idempotent.  Rewriting
`/shared/source` to `/source` inside
`file:///shared/shared/source/source/x` creates a fresh occurrence of
`/shared/source/` that only the second application rewrites, so applying
the function to an already-normalized path changes it again. -/
theorem c5_counterexample :
    normPath "" (normPath "" "file:///shared/shared/source/source/x") ≠
      normPath "" "file:///shared/shared/source/source/x" := by
  decide

/-- The rewrite chain is the identity on a string containing none of its
patterns (and no test directory to strip). -/
theorem normFileName_stable (u d : String)
    (h1 : d = "" ∨ containsS u d = false)
    (h2 : containsS u "/root/.m2/repository" = false)
    (h3 : containsS u "/cache/m2/" = false)
    (h4 : containsS u "/addon/.m2/repository" = false)
    (h5 : containsS u "/shared/source/" = false)
    (h6 : containsS u "/opt/input/source" = false)
    (h7 : containsS u "/java-bin-" = false) :
    normFileName u d = u := by
  have hjb := javaBinReplace_of_not_contains u h7
  rcases h1 with hd | hd
  · simp [normFileName, hd, h2, h3, h4, h5, h6, hjb]
  · have hrd := SReplaceAll_of_not_contains u d "" hd
    by_cases hde : d = ""
    · simp [normFileName, hde, h2, h3, h4, h5, h6, hjb]
    · simp [normFileName, hde, hrd, h2, h3, h4, h5, h6, hjb]

set_option maxHeartbeats 2000000 in
/-- C5, amended: normalization is idempotent only on stable outputs: if the
once-normalized path contains no further occurrence of any rewrite pattern
(the test directory when non-empty, the Maven-cache aliases, the
source-mount aliases, or a `java-bin-` segment), then a second application
returns it unchanged.  (The counterexample above shows the unconditional
claim fails.) -/
theorem c5_idempotent_on_stable (d p : String)
    (h1 : d = "" ∨ containsS (normPath d p) d = false)
    (h2 : containsS (normPath d p) "/root/.m2/repository" = false)
    (h3 : containsS (normPath d p) "/cache/m2/" = false)
    (h4 : containsS (normPath d p) "/addon/.m2/repository" = false)
    (h5 : containsS (normPath d p) "/shared/source/" = false)
    (h6 : containsS (normPath d p) "/opt/input/source" = false)
    (h7 : containsS (normPath d p) "/java-bin-" = false) :
    normPath d (normPath d p) = normPath d p := by
  have hfn := normFileName_stable (normPath d p) d h1 h2 h3 h4 h5 h6 h7
  show ((normalizeIncident ⟨normPath d p, "", "", none, []⟩ d).1).URI = normPath d p
  unfold normalizeIncident
  split_ifs with hc1 hc2
  · rfl
  · exfalso
    simp only [Bool.or_eq_true, decide_eq_true_eq, Bool.not_eq_true',
      not_or, Bool.not_eq_false] at hc1
    have hc2eq : normFileName (normPath d p) d = "" := hc2
    rw [hfn] at hc2eq
    exact hc1.1 hc2eq
  · show normFileName (normPath d p) d = normPath d p
    exact hfn

/-! ## C2: the tackle-hub relaxations -/

/-- The relaxed URI condition as the claim words it: the expected URI's
path relative to the project source root (`/source`) is contained in the
actual URI's path. -/
def relTailContained (i ai : Incident) : Bool :=
  match filenameOf i.URI with
  | none => false
  | some fn =>
    match relSource fn with
    | none => false
    | some t =>
      match filenameOf ai.URI with
      | none => false
      | some afn => containsS afn t

theorem filenameOf_ne_empty {u x : String} (h : filenameOf u = some x) :
    u ≠ "" := by
  unfold filenameOf at h
  split_ifs at h with hp
  intro hu
  rw [hu] at hp
  exact absurd hp (by decide)

/-- C2: under the tackle-hub comparer (a) the unmatched and skipped
comparisons report zero discrepancies on every input; (b) a pair of
incidents with equal messages and compatible line numbers matches whenever
the expected URI's `/source`-relative tail is contained in the actual
URI's path; and (c) concretely, an actual incident at
`file:///opt/input/source/App.java` normalizes to `file:///source/App.java`
and matches the expected incident at `file:///source/App.java` — and even
the un-normalized actual URI matches through the containment rule. -/
theorem c2_tackle_hub_relaxations :
    (∀ e a : List String, hubComparer.compareUnmatched e a = [] ∧
       hubComparer.compareSkipped e a = []) ∧
    (∀ i ai : Incident, i.Message = ai.Message →
       lineNumbersMismatch i ai = false →
       relTailContained i ai = true →
       hubIncidentsMatch i ai = some true) ∧
    ((normalizeIncident ⟨"file:///opt/input/source/App.java", "msg", "", some 42, []⟩ "") =
       (⟨"file:///source/App.java", "msg", "", some 42, []⟩, none)) ∧
    (hubIncidentsMatch ⟨"file:///source/App.java", "msg", "", some 42, []⟩
       ⟨"file:///source/App.java", "msg", "", some 42, []⟩ = some true) ∧
    (hubIncidentsMatch ⟨"file:///source/App.java", "msg", "", some 42, []⟩
       ⟨"file:///opt/input/source/App.java", "msg", "", some 42, []⟩ = some true) := by
  refine ⟨fun e a => ⟨rfl, rfl⟩, ?_, by decide, by decide, by decide⟩
  intro i ai hmsg hline hrel
  unfold relTailContained at hrel
  cases hfn : filenameOf i.URI with
  | none => simp only [hfn] at hrel; exact Bool.noConfusion hrel
  | some fn =>
    simp only [hfn] at hrel
    cases hrs : relSource fn with
    | none => simp only [hrs] at hrel; exact Bool.noConfusion hrel
    | some t =>
      simp only [hrs] at hrel
      cases hafn : filenameOf ai.URI with
      | none => simp only [hafn] at hrel; exact Bool.noConfusion hrel
      | some afn =>
        simp only [hafn] at hrel
        have hine := filenameOf_ne_empty hfn
        have haine := filenameOf_ne_empty hafn
        by_cases heq : i.URI = ai.URI
        · simp [hubIncidentsMatch, hubUriStep, hine, haine, heq, hmsg, hline]
        · simp [hubIncidentsMatch, hubUriStep, hine, haine, heq, hfn, hrs,
            hafn, hrel, hmsg, hline]

/-- C5, witness: a plain already-canonical source path is a fixed point. -/
theorem c5_witness :
    normPath "" (normPath "" "file:///source/App.java") =
      normPath "" "file:///source/App.java" :=
  c5_idempotent_on_stable "" "file:///source/App.java" (Or.inl rfl)
    (by decide) (by decide) (by decide) (by decide) (by decide) (by decide)

/-! ## C4: a normalization error aborts the run before comparison -/

/-- C4, counterexample: with test directory `file:///x`, normalizing a
ruleset whose violation `bad` has an incident at `file:///x` (the rewrite
empties it) aggregates the error alongside the normalized remainder — the
unaffected violation `good` is kept, the failing one is dropped — yet the
run aborts (`none`): the comparison is never performed for the unaffected
remainder, contradicting the claim. -/
theorem c4_counterexample :
    (runValidationPhase "file:///x" "kantra"
      [⟨"rs", "", [],
        [("bad", ⟨"", none, [], [⟨"file:///x", "m", "", some 1, []⟩], [], "", some 1⟩),
         ("good", ⟨"", none, [], [⟨"file:///source/App.java", "m", "", some 1, []⟩], [], "", some 1⟩)],
        [], [], [], []⟩] [] = none) ∧
    (NormalizeRuleSets
      [⟨"rs", "", [],
        [("bad", ⟨"", none, [], [⟨"file:///x", "m", "", some 1, []⟩], [], "", some 1⟩),
         ("good", ⟨"", none, [], [⟨"file:///source/App.java", "m", "", some 1, []⟩], [], "", some 1⟩)],
        [], [], [], []⟩] "file:///x" =
      ([⟨"rs", "", [],
         [("good", ⟨"", none, [], [⟨"file:///source/App.java", "m", "", some 1, []⟩], [], "", some 1⟩)],
         [], [], [], []⟩],
       ["fileName went to empty: file:///x"])) := by
  constructor
  · decide
  · decide

/-- C4, amended: `NormalizeRuleSets` does aggregate per-incident errors and
returns them alongside the successfully normalized remainder (dropping the
violation that contains the failing incident), but `runSingleTest` marks
the test failed and returns as soon as the aggregate error is non-nil, so
the document comparison is *not* performed. -/
theorem c4_normalization_error_aborts (actual expected : List RuleSet)
    (d t : String) (h : (NormalizeRuleSets actual d).2 ≠ []) :
    runValidationPhase d t actual expected = none := by
  unfold runValidationPhase
  cases hn : NormalizeRuleSets actual d with
  | mk out errs =>
    rw [hn] at h
    cases errs with
    | nil => exact absurd rfl h
    | cons e es => rfl

/-- C4, witness: a concrete aborted run. -/
theorem c4_witness :
    runValidationPhase "file:///y" "kantra"
      [⟨"rs", "", [],
        [("bad", ⟨"", none, [], [⟨"file:///y", "m", "", some 1, []⟩], [], "", some 1⟩)],
        [], [], [], []⟩] [] = none :=
  c4_normalization_error_aborts _ _ _ _ (by decide)

/-! ## C6: the Relaxed-B strategy -/

/-- C6: there is a comparer strategy — the one `getComparer` selects for
the `kantra` backend (and its UI/RPC/vscode variants) — whose tags
comparison reports zero discrepancies on every input while the violation,
error, unmatched and skipped comparisons are exactly the strict (base)
ones. -/
theorem c6_relaxed_b_strategy :
    (∀ d : String, getComparer "kantra" d = some kantraComparer) ∧
    (∀ e a : List String, kantraComparer.compareTags e a = []) ∧
    kantraComparer.compareViolations = baseComparer.compareViolations ∧
    kantraComparer.compareErrors = baseComparer.compareErrors ∧
    kantraComparer.compareUnmatched = baseComparer.compareUnmatched ∧
    kantraComparer.compareSkipped = baseComparer.compareSkipped :=
  ⟨fun _ => rfl, fun _ _ => rfl, rfl, rfl, rfl, rfl⟩

/-! ## C8: the empty-actual-incident fault -/

/-- C8: evaluating the base violation-detail comparison at the failing
input.  When the actual incident list is empty, the set of failing fields
collected for an unmatched expected incident is empty and
`slices.Sorted(maps.Keys(faild_fields))[len(faild_fields)-1]` indexes at
`-1` — a runtime panic (`none`) instead of the missing-incident
discrepancy; with at least one non-matching candidate, the discrepancy is
produced without a fault. -/
theorem c8_empty_actual_incident_fault :
    (baseCompareViolationDetails
      ⟨"", none, [], [⟨"file:///source/A.java", "m", "", some 1, []⟩], [], "", none⟩
      ⟨"", none, [], [], [], "", none⟩ = none) ∧
    ((baseCompareViolationDetails
      ⟨"", none, [], [⟨"file:///source/A.java", "m", "", some 1, []⟩], [], "", none⟩
      ⟨"", none, [], [⟨"file:///other.java", "m", "", some 2, []⟩], [], "", none⟩).isSome
        = true) := by
  constructor
  · decide
  · decide

/-! ## C9: nil comparer for unrecognized target types -/

theorem processRuleset_nil_of_differs (actual : List RuleSet) (ers rs : RuleSet)
    (hfind : actual.find? (fun r => r.Name == ers.Name) = some rs)
    (hdiff : rulesetDiffers ers rs = true) :
    processRuleset none actual ers = none := by
  unfold processRuleset
  rw [hfind]
  unfold rulesetDiffers at hdiff
  cases hg1 : mapsEqualB ers.Errors rs.Errors with
  | false => simp [guardStep, hg1]
  | true =>
  cases hg2 : rs.Tags == ers.Tags with
  | false => simp [guardStep, hg1, hg2]
  | true =>
  cases hg3 : mapsEqualB rs.Insights ers.Insights with
  | false => simp [guardStep, hg1, hg2, hg3]
  | true =>
  cases hg4 : mapsEqualB rs.Violations ers.Violations with
  | false => simp [guardStep, hg1, hg2, hg3, hg4]
  | true =>
  cases hg5 : rs.Unmatched == ers.Unmatched with
  | false => simp [guardStep, hg1, hg2, hg3, hg4, hg5]
  | true =>
  cases hg6 : rs.Skipped == ers.Skipped with
  | false => simp [guardStep, hg1, hg2, hg3, hg4, hg5, hg6]
  | true => simp [hg1, hg2, hg3, hg4, hg5, hg6] at hdiff

theorem processRulesets_none {c : Option Comparer} {actual : List RuleSet} :
    ∀ {expected : List RuleSet} {ers : RuleSet}, ers ∈ expected →
      processRuleset c actual ers = none →
      processRulesets c actual expected = none := by
  intro expected
  induction expected with
  | nil => intro ers h; cases h
  | cons e rest ih =>
    intro ers hmem hnone
    rcases List.mem_cons.mp hmem with rfl | hmem2
    · unfold processRulesets
      rw [hnone]
    · unfold processRulesets
      cases processRuleset c actual e with
      | none => rfl
      | some errs => rw [ih hmem2 hnone]

/-- C9: `getComparer` is non-nil exactly for the five recognized target
types and nil for every other string — including the empty string, which
the exported `Validate` passes through — and with a nil comparer,
`ValidateFiles` panics (dereferences nil, `none`) as soon as some expected
ruleset finds an actual ruleset of the same name that differs in any
compared field. -/
theorem c9_nil_comparer_fault :
    (∀ actual expected : List RuleSet,
       Validate actual expected = ValidateFiles "" "" actual expected) ∧
    (∀ t d : String, (getComparer t d).isSome = true ↔
       (t = "kantra" ∨ t = "tackle-hub" ∨ t = "tackle-ui" ∨
        t = "kai-rpc" ∨ t = "vscode")) ∧
    (∀ (t d : String) (actual expected : List RuleSet),
       getComparer t d = none →
       (expected.any (fun ers =>
          match actual.find? (fun rs => rs.Name == ers.Name) with
          | some rs => rulesetDiffers ers rs
          | none => false)) = true →
       ValidateFiles d t actual expected = none) := by
  refine ⟨fun _ _ => rfl, ?_, ?_⟩
  · intro t d
    unfold getComparer
    split_ifs with h1 h2 h3 h4 h5 <;> simp_all
  · intro t d actual expected hc hany
    obtain ⟨ers, hmem, hcond⟩ := List.any_eq_true.mp hany
    cases hfind : actual.find? (fun rs => rs.Name == ers.Name) with
    | none => rw [hfind] at hcond; exact Bool.noConfusion hcond
    | some rs =>
      rw [hfind] at hcond
      have hcond2 : rulesetDiffers ers rs = true := hcond
      have hnone := processRuleset_nil_of_differs actual ers rs hfind hcond2
      unfold ValidateFiles
      rw [hc, processRulesets_none hmem hnone]

/-! ## C7: the map-keyed completeness lower bound -/

/-- C7, counterexample: the detail comparison on the shared id `r` panics
(expected has an incident, actual has none — the `-1` indexing fault), so
the comparison emits nothing at all even though `N = 2`, `M = 1`, `K = 1`
demand at least `(N-K) + (M-K) = 1` discrepancy for the missing id `s`. -/
theorem c7_counterexample :
    baseCompareViolations
      [("r", ⟨"", none, [], [⟨"file:///source/A.java", "m", "", some 1, []⟩], [], "", none⟩),
       ("s", ⟨"", none, [], [], [], "", none⟩)]
      [("r", ⟨"", none, [], [], [], "", none⟩)] = none := by
  decide

theorem countP_isSome_add_isNone {α : Type} (a e : List (String × α)) :
    e.countP (fun kv => (lookupK kv.1 a).isSome) +
      e.countP (fun kv => (lookupK kv.1 a).isNone) = e.length := by
  induction e with
  | nil => rfl
  | cons kv rest ih =>
    cases h : lookupK kv.1 a <;>
      simp [List.countP_cons, h] <;> omega

theorem lookupK_isSome_eq {α : Type} (k : String) (l : List (String × α)) :
    (lookupK k l).isSome = decide (k ∈ l.map Prod.fst) := by
  by_cases h : k ∈ l.map Prod.fst
  · simp [h, (lookupK_isSome_iff k l).mpr h]
  · have hf : ¬ ((lookupK k l).isSome = true) :=
      fun hc => h ((lookupK_isSome_iff k l).mp hc)
    simp [h]
    simpa using hf

theorem countP_isSome_eq_inter_length {α : Type} (e a : List (String × α)) :
    e.countP (fun kv => (lookupK kv.1 a).isSome) =
      ((e.map Prod.fst).inter (a.map Prod.fst)).length := by
  induction e with
  | nil => rfl
  | cons kv rest ih =>
    by_cases hmem : kv.1 ∈ a.map Prod.fst
    · have hs : (lookupK kv.1 a).isSome = true :=
        (lookupK_isSome_iff kv.1 a).mpr hmem
      simp [List.countP_cons, hs, List.inter, List.filter_cons, hmem] at *
      omega
    · have hs : (lookupK kv.1 a).isSome = false := by
        rw [lookupK_isSome_eq]
        simp [hmem]
      simp [List.countP_cons, hs, List.inter, List.filter_cons, hmem] at *
      omega

theorem inter_length_comm {l1 l2 : List String}
    (h1 : l1.Nodup) (h2 : l2.Nodup) :
    (l1.inter l2).length = (l2.inter l1).length := by
  have e1 : l1.inter l2 = l1 ∩ l2 := rfl
  have e2 : l2.inter l1 = l2 ∩ l1 := rfl
  rw [e1, e2]
  calc (l1 ∩ l2).length
      = (l1 ∩ l2).toFinset.card :=
        (List.toFinset_card_of_nodup (h1.inter l2)).symm
    _ = (l1.toFinset ∩ l2.toFinset).card := by rw [List.toFinset_inter]
    _ = (l2.toFinset ∩ l1.toFinset).card := by rw [Finset.inter_comm]
    _ = (l2 ∩ l1).toFinset.card := by rw [List.toFinset_inter]
    _ = (l2 ∩ l1).length := List.toFinset_card_of_nodup (h2.inter l1)

theorem baseCompareViolationsGo_lower (a : List (String × Violation)) :
    ∀ (e : List (String × Violation)) (l : List ValidationError),
      baseCompareViolationsGo a e = some l →
      e.countP (fun kv => (lookupK kv.1 a).isNone) ≤ l.length := by
  intro e
  induction e with
  | nil =>
    intro l h
    cases h
    simp
  | cons kv rest ih =>
    intro l h
    obtain ⟨k, exp⟩ := kv
    unfold baseCompareViolationsGo at h
    cases hlk : lookupK k a with
    | none =>
      simp only [hlk] at h
      cases hr : baseCompareViolationsGo a rest with
      | none => simp only [hr] at h; exact Option.noConfusion h
      | some restErrs =>
        simp only [hr] at h
        cases h
        have hih := ih restErrs hr
        simp [List.countP_cons, hlk]
        omega
    | some act =>
      simp only [hlk] at h
      cases hd : baseCompareViolationDetails exp act with
      | none => simp only [hd] at h; exact Option.noConfusion h
      | some des =>
        simp only [hd] at h
        cases hr : baseCompareViolationsGo a rest with
        | none => simp only [hr] at h; exact Option.noConfusion h
        | some restErrs =>
          simp only [hr] at h
          cases h
          have hih := ih restErrs hr
          simp [List.countP_cons, hlk]
          omega

/-- C7, amended: the bound holds for every *completed* comparison: whenever
`compareViolations` returns a result (does not hit the empty-actual-incident
fault of the detail comparison), and the two maps have `N` and `M` ids with
`K` in common, at least `(N-K) + (M-K)` discrepancies are emitted — one per
missing expected id and one per unexpected actual id.  (The counterexample
above shows a faulting run emits nothing although the bound is positive.) -/
theorem c7_completeness_lower_bound (e a : List (String × Violation))
    (l : List ValidationError)
    (he : (e.map Prod.fst).Nodup) (ha : (a.map Prod.fst).Nodup)
    (h : baseCompareViolations e a = some l) :
    (e.length - ((e.map Prod.fst).inter (a.map Prod.fst)).length) +
      (a.length - ((e.map Prod.fst).inter (a.map Prod.fst)).length) ≤
        l.length := by
  unfold baseCompareViolations at h
  cases hg : baseCompareViolationsGo a e with
  | none => rw [hg] at h; exact Option.noConfusion h
  | some l1 =>
    rw [hg] at h
    cases h
    have h1 := baseCompareViolationsGo_lower a e l1 hg
    have hK := countP_isSome_eq_inter_length e a
    have hKsum := countP_isSome_add_isNone a e
    have hKa := countP_isSome_eq_inter_length a e
    have hKasum := countP_isSome_add_isNone e a
    have hcomm := inter_length_comm he ha
    have hun : (unexpectedViolationErrs e a).length =
        a.countP (fun kv => (lookupK kv.1 e).isNone) := by
      unfold unexpectedViolationErrs
      rw [List.length_map, ← List.countP_eq_length_filter]
    simp only [List.length_append, hun]
    omega

/-- C7, witness: one expected id, no actual ids — the comparison completes
with exactly the one `missing violation` discrepancy the bound demands. -/
theorem c7_witness :
    (([("r", (⟨"", none, [], [], [], "", some 1⟩ : Violation))].length -
        (([("r", (⟨"", none, [], [], [], "", some 1⟩ : Violation))].map Prod.fst).inter
          (([] : List (String × Violation)).map Prod.fst)).length) +
      (([] : List (String × Violation)).length -
        (([("r", (⟨"", none, [], [], [], "", some 1⟩ : Violation))].map Prod.fst).inter
          (([] : List (String × Violation)).map Prod.fst)).length)) ≤
      [({ Path := "/r", Message := "Did not find expected violation: r",
          Expected := .vio ⟨"", none, [], [], [], "", some 1⟩ } : ValidationError)].length :=
  c7_completeness_lower_bound
    [("r", ⟨"", none, [], [], [], "", some 1⟩)] [] _
    (by decide) (by decide) (by decide)

/-! ## C10: normalization changes nothing but incident URIs -/

/-- Blank out an incident's URI, keeping every other field. -/
def scrubIncident (i : Incident) : Incident :=
  { i with URI := "" }

/-- Blank out the URIs of a violation's incidents. -/
def scrubViolation (v : Violation) : Violation :=
  { v with Incidents := v.Incidents.map scrubIncident }

/-- Blank out every incident URI of a ruleset (violations and insights). -/
def scrubRuleSet (rs : RuleSet) : RuleSet :=
  { rs with
    Violations := rs.Violations.map (fun kv => (kv.1, scrubViolation kv.2))
    Insights := rs.Insights.map (fun kv => (kv.1, scrubViolation kv.2)) }

theorem scrub_normalizeIncident (i : Incident) (d : String) :
    scrubIncident (normalizeIncident i d).1 = scrubIncident i := by
  unfold normalizeIncident
  split_ifs <;> rfl

theorem normalizeIncidentList_scrub (d : String) (l : List Incident) :
    (normalizeIncidentList d l).1.map scrubIncident =
      l.map scrubIncident := by
  induction l with
  | nil => rfl
  | cons i rest ih =>
    have hs := scrub_normalizeIncident i d
    cases hni : normalizeIncident i d with
    | mk ni e =>
      rw [hni] at hs
      simp only [normalizeIncidentList, hni, List.map_cons]
      rw [hs, ih]

theorem normalizeIncidentList_noerr (d : String) (l : List Incident)
    (h : ∀ i ∈ l, (normalizeIncident i d).2 = none) :
    (normalizeIncidentList d l).2 = [] := by
  induction l with
  | nil => rfl
  | cons i rest ih =>
    have hi := h i (List.mem_cons_self i rest)
    cases hni : normalizeIncident i d with
    | mk ni e =>
      rw [hni] at hi
      simp only at hi
      subst hi
      simp only [normalizeIncidentList, hni]
      exact ih (fun j hj => h j (List.mem_cons_of_mem i hj))

theorem normalizeViolation_scrub (v : Violation) (d : String) :
    scrubViolation (normalizeViolation v d).1 = scrubViolation v := by
  unfold normalizeViolation scrubViolation
  cases hl : normalizeIncidentList d v.Incidents with
  | mk incs errs =>
    have := normalizeIncidentList_scrub d v.Incidents
    rw [hl] at this
    simp only at this ⊢
    rw [this]

theorem normalizeViolation_noerr (v : Violation) (d : String)
    (h : ∀ i ∈ v.Incidents, (normalizeIncident i d).2 = none) :
    (normalizeViolation v d).2 = [] := by
  unfold normalizeViolation
  cases hl : normalizeIncidentList d v.Incidents with
  | mk incs errs =>
    have := normalizeIncidentList_noerr d v.Incidents h
    rw [hl] at this
    simpa using this

theorem normalizeViolationEntries_spec (d : String)
    (l : List (String × Violation))
    (h : ∀ kv ∈ l, ∀ i ∈ kv.2.Incidents, (normalizeIncident i d).2 = none) :
    (normalizeViolationEntries d l).1.map (fun kv => (kv.1, scrubViolation kv.2)) =
        l.map (fun kv => (kv.1, scrubViolation kv.2)) ∧
      (normalizeViolationEntries d l).2 = [] := by
  induction l with
  | nil => exact ⟨rfl, rfl⟩
  | cons kv rest ih =>
    obtain ⟨k, v⟩ := kv
    have hv : (normalizeViolation v d).2 = [] :=
      normalizeViolation_noerr v d
        (h (k, v) (List.mem_cons_self _ rest))
    have hvs := normalizeViolation_scrub v d
    obtain ⟨ih1, ih2⟩ := ih (fun kv hkv i hi =>
      h kv (List.mem_cons_of_mem _ hkv) i hi)
    cases hnv : normalizeViolation v d with
    | mk nv errs =>
      rw [hnv] at hv hvs
      simp only at hv
      subst hv
      constructor
      · simp only [normalizeViolationEntries, hnv, List.map_cons]
        cases hre : normalizeViolationEntries d rest with
        | mk restOut restErrs =>
          rw [hre] at ih1
          simp only at ih1 ⊢
          rw [hvs, ih1]
      · simp only [normalizeViolationEntries, hnv]
        cases hre : normalizeViolationEntries d rest with
        | mk restOut restErrs =>
          rw [hre] at ih2
          simpa using ih2

theorem normalizeInsightEntries_scrub (d : String)
    (l : List (String × Violation))
    (h : ∀ kv ∈ l, ∀ i ∈ kv.2.Incidents, (normalizeIncident i d).2 = none) :
    (normalizeInsightEntries d l).map (fun kv => (kv.1, scrubViolation kv.2)) =
      l.map (fun kv => (kv.1, scrubViolation kv.2)) := by
  induction l with
  | nil => rfl
  | cons kv rest ih =>
    obtain ⟨k, v⟩ := kv
    have hv : (normalizeViolation v d).2 = [] :=
      normalizeViolation_noerr v d
        (h (k, v) (List.mem_cons_self _ rest))
    have hvs := normalizeViolation_scrub v d
    have ih2 := ih (fun kv hkv i hi =>
      h kv (List.mem_cons_of_mem _ hkv) i hi)
    cases hnv : normalizeViolation v d with
    | mk nv errs =>
      rw [hnv] at hv hvs
      simp only at hv
      subst hv
      simp only [normalizeInsightEntries, hnv, List.map_cons]
      rw [hvs, ih2]

/-- C10: when every incident of every violation and insight normalizes
without error, `NormalizeRuleSets` reports a nil aggregate error and
changes nothing but incident URIs: scrubbing the URIs of its output gives
back the scrubbed input — same rulesets in the same order with name,
description, tags, errors, unmatched, skipped, every keyed
violation/insight and every incident field other than the URI intact. -/
theorem c10_normalize_frame (rss : List RuleSet) (d : String)
    (h : ∀ rs ∈ rss,
      (∀ kv ∈ rs.Violations, ∀ i ∈ kv.2.Incidents,
        (normalizeIncident i d).2 = none) ∧
      (∀ kv ∈ rs.Insights, ∀ i ∈ kv.2.Incidents,
        (normalizeIncident i d).2 = none)) :
    (NormalizeRuleSets rss d).1.map scrubRuleSet = rss.map scrubRuleSet ∧
      (NormalizeRuleSets rss d).2 = [] := by
  induction rss with
  | nil => exact ⟨rfl, rfl⟩
  | cons rs rest ih =>
    obtain ⟨hv, hi⟩ := h rs (List.mem_cons_self _ rest)
    obtain ⟨ihs, ihe⟩ := ih (fun r hr => h r (List.mem_cons_of_mem _ hr))
    obtain ⟨hvs, hve⟩ := normalizeViolationEntries_spec d rs.Violations hv
    have his := normalizeInsightEntries_scrub d rs.Insights hi
    cases hventries : normalizeViolationEntries d rs.Violations with
    | mk vios verrs =>
      rw [hventries] at hvs hve
      simp only at hve
      subst hve
      cases hrest : NormalizeRuleSets rest d with
      | mk restOut restErrs =>
        rw [hrest] at ihs ihe
        simp only at ihs ihe
        subst ihe
        constructor
        · simp only [NormalizeRuleSets, hventries, hrest, List.map_cons]
          simp only at hvs
          refine congrArg₂ _ ?_ ihs
          simp [scrubRuleSet, RuleSet.mk.injEq, hvs, his]
        · simp only [NormalizeRuleSets, hventries, hrest]
          rfl

/-- C10, witness: a concrete ruleset whose single violation and single
insight normalize cleanly. -/
theorem c10_witness :
    ((NormalizeRuleSets
        [⟨"rs", "desc", ["t"],
          [("v1", ⟨"dv", some "mandatory", ["l"],
            [⟨"file:///opt/input/source/App.java", "m", "cs", some 3, [("k", "w")]⟩],
            [⟨"http://u", "ti"⟩], "x", some 5⟩)],
          [("i1", ⟨"di", none, [],
            [⟨"file:///shared/source/B.java", "m2", "", none, []⟩],
            [], "", none⟩)],
          [("e", "msg")], ["u"], ["s"]⟩] "").1.map scrubRuleSet =
      [⟨"rs", "desc", ["t"],
        [("v1", ⟨"dv", some "mandatory", ["l"],
          [⟨"", "m", "cs", some 3, [("k", "w")]⟩],
          [⟨"http://u", "ti"⟩], "x", some 5⟩)],
        [("i1", ⟨"di", none, [],
          [⟨"", "m2", "", none, []⟩],
          [], "", none⟩)],
        [("e", "msg")], ["u"], ["s"]⟩]) ∧
    (NormalizeRuleSets
        [⟨"rs", "desc", ["t"],
          [("v1", ⟨"dv", some "mandatory", ["l"],
            [⟨"file:///opt/input/source/App.java", "m", "cs", some 3, [("k", "w")]⟩],
            [⟨"http://u", "ti"⟩], "x", some 5⟩)],
          [("i1", ⟨"di", none, [],
            [⟨"file:///shared/source/B.java", "m2", "", none, []⟩],
            [], "", none⟩)],
          [("e", "msg")], ["u"], ["s"]⟩] "").2 = [] := by
  have := c10_normalize_frame
    [⟨"rs", "desc", ["t"],
      [("v1", ⟨"dv", some "mandatory", ["l"],
        [⟨"file:///opt/input/source/App.java", "m", "cs", some 3, [("k", "w")]⟩],
        [⟨"http://u", "ti"⟩], "x", some 5⟩)],
      [("i1", ⟨"di", none, [],
        [⟨"file:///shared/source/B.java", "m2", "", none, []⟩],
        [], "", none⟩)],
      [("e", "msg")], ["u"], ["s"]⟩] "" (by decide)
  exact ⟨by rw [this.1]; decide, this.2⟩

end Koncur
